import Mathlib

/-!
Verification of the Persian Flesch–Dayani readability pipeline
(`persian_readability.py`).

The pipeline's own logic (`approx_syllables_in_word`, `count_syllables`,
`compute_flesch_dayani`) is embedded shallowly below.  The three external
collaborators from the hazm library (`Normalizer.normalize`,
`sent_tokenize`, `word_tokenize`) are not part of the repository, so the
pipeline is parameterised over them as arbitrary pure functions; every
theorem about the pipeline is stated for all such collaborator functions.

Strings are modelled as `List Char`; Python float arithmetic on the score
is modelled over `ℚ` (the claims concern the formula's algebraic shape,
not IEEE rounding).
-/

namespace PersianReadability

/-- A (Python) string, modelled as its list of Unicode code points. -/
abbrev Str := List Char

/-- Characters stripped by Python's `str.strip()` (the Unicode whitespace
set used by CPython's `Py_UNICODE_ISSPACE`). -/
def pyIsSpace (c : Char) : Bool :=
  (0x09 ≤ c.val && c.val ≤ 0x0D) || (0x1C ≤ c.val && c.val ≤ 0x1F) ||
  c.val == 0x20 || c.val == 0x85 || c.val == 0xA0 || c.val == 0x1680 ||
  (0x2000 ≤ c.val && c.val ≤ 0x200A) || c.val == 0x2028 || c.val == 0x2029 ||
  c.val == 0x202F || c.val == 0x205F || c.val == 0x3000

/-- Python's `w.strip()`: drop whitespace from both ends. -/
def pyStrip (w : Str) : Str :=
  List.rdropWhile pyIsSpace (List.dropWhile pyIsSpace w)

/-- `w.strip()` is truthy, i.e. the stripped string is non-empty.  This is
the test applied to each token in the list comprehension on line 67 of the
source. -/
def stripTruthy (w : Str) : Bool :=
  !(pyStrip w).isEmpty

/-- The `vowels` set of `approx_syllables_in_word` (source line 46),
written with the very string literal of the source (it contains repeated
characters; `set(...)` in Python and list membership here agree). -/
def vowels : Str :=
  ("اآایویۀؤءةۀۀ" : String).toList

/-- Embedding of `approx_syllables_in_word` (source lines 37–48):
count the characters of the word lying in `vowels`; `count or 1`
evaluates to `1` exactly when the count is `0`. -/
def approx_syllables_in_word (word : Str) : Nat :=
  let count := List.countP (fun ch => vowels.contains ch) word
  if count = 0 then 1 else count

/-- Embedding of `count_syllables` (source lines 51–52). -/
def count_syllables (words : List Str) : Nat :=
  (words.map approx_syllables_in_word).sum

/-- Embedding of the `ReadabilityResult` dataclass (source lines 25–32). -/
structure ReadabilityResult where
  sentences : Nat
  words : Nat
  syllables : Nat
  asl : ℚ
  asw : ℚ
  flesch_dayani : ℚ
  deriving DecidableEq, Repr

/-- The flattened, whitespace-filtered word list of source line 67:
`[w for sent in tokenized_sentences for w in sent if w.strip()]`. -/
def pipeline_words (tokenized_sentences : List (List Str)) : List Str :=
  (tokenized_sentences.map (fun sent => sent.filter stripTruthy)).flatten

/-- Embedding of `compute_flesch_dayani` (source lines 57–88),
parameterised over the three hazm collaborators. -/
def compute_flesch_dayani (normalize : Str → Str)
    (sent_tokenize : Str → List Str) (word_tokenize : Str → List Str)
    (text : Str) : ReadabilityResult :=
  let normalized := normalize text
  let sentences := sent_tokenize normalized
  let n_sentences := max sentences.length 1
  let tokenized_sentences := sentences.map word_tokenize
  let words := pipeline_words tokenized_sentences
  let n_words := max words.length 1
  let n_syllables := max (count_syllables words) 1
  let asl : ℚ := (n_words : ℚ) / (n_sentences : ℚ)
  let asw : ℚ := (n_syllables : ℚ) / (n_words : ℚ)
  let score : ℚ := 262.835 - 1.015 * asl - 0.846 * asw
  { sentences := n_sentences, words := n_words, syllables := n_syllables,
    asl := asl, asw := asw, flesch_dayani := score }

/-- The score formula of source line 79 as a function of the three clamped
counts (used to state the monotonicity claim). -/
def flesch_score (n_sentences n_words n_syllables : Nat) : ℚ :=
  262.835 - 1.015 * ((n_words : ℚ) / (n_sentences : ℚ))
    - 0.846 * ((n_syllables : ℚ) / (n_words : ℚ))

/-- The vowel-bearing set exactly as the specification lists it:
{ا, آ, ی, و, ۀ, ؤ, ء, ة}. -/
def specVowelSet : Str :=
  ['ا', 'آ', 'ی', 'و', 'ۀ', 'ؤ', 'ء', 'ة']

/-! ### Helper lemmas -/

lemma vowels_eq_explicit :
    vowels = ['ا', 'آ', 'ا', 'ی', 'و', 'ی', 'ۀ', 'ؤ', 'ء', 'ة', 'ۀ', 'ۀ'] := by
  decide

lemma mem_vowels_iff_mem_spec (c : Char) : c ∈ vowels ↔ c ∈ specVowelSet := by
  rw [vowels_eq_explicit]
  simp only [specVowelSet, List.mem_cons, List.not_mem_nil, or_false]
  tauto

lemma contains_vowels_eq_contains_spec (c : Char) :
    vowels.contains c = specVowelSet.contains c := by
  simp only [List.contains, List.elem_eq_mem, decide_eq_decide]
  exact mem_vowels_iff_mem_spec c

/-! ### Claim theorems -/

/-- C2: for every word string, `approx_syllables_in_word` returns the number
of characters of the word that lie in the fixed vowel-bearing set
{ا, آ, ی, و, ۀ, ؤ, ء, ة} (each occurrence counted), except that it returns
1 when that membership count is zero. -/
theorem C2_approx_syllables_spec (word : Str) :
    approx_syllables_in_word word =
      if List.countP (fun ch => specVowelSet.contains ch) word = 0 then 1
      else List.countP (fun ch => specVowelSet.contains ch) word := by
  have h : List.countP (fun ch => vowels.contains ch) word
      = List.countP (fun ch => specVowelSet.contains ch) word :=
    List.countP_congr (fun x _ => by rw [contains_vowels_eq_contains_spec])
  unfold approx_syllables_in_word
  rw [h]

/-- C4: for every non-empty word string, the approximate-syllable count is
at least 1, even when the word has no character of the vowel-bearing set. -/
theorem C4_syllables_ge_one (word : Str) (h : word ≠ []) :
    1 ≤ approx_syllables_in_word word := by
  show 1 ≤ if List.countP (fun ch => vowels.contains ch) word = 0 then 1
      else List.countP (fun ch => vowels.contains ch) word
  split <;> omega

/-- Witness for C4 at the concrete word "س". -/
theorem C4_witness :
    (['س'] : Str) ≠ [] ∧ 1 ≤ approx_syllables_in_word ['س'] :=
  ⟨by decide, C4_syllables_ge_one ['س'] (by decide)⟩

/-- C1: for every input text (and every choice of the three collaborator
functions), the score returned by `compute_flesch_dayani` equals
262.835 − 0.846·asw − 1.015·asl, where asl = n_words / n_sentences and
asw = n_syllables / n_words are computed from the clamped counts. -/
theorem C1_score_formula (nm : Str → Str) (st wt : Str → List Str) (t : Str) :
    (compute_flesch_dayani nm st wt t).asl =
      ((compute_flesch_dayani nm st wt t).words : ℚ) /
        ((compute_flesch_dayani nm st wt t).sentences : ℚ) ∧
    (compute_flesch_dayani nm st wt t).asw =
      ((compute_flesch_dayani nm st wt t).syllables : ℚ) /
        ((compute_flesch_dayani nm st wt t).words : ℚ) ∧
    (compute_flesch_dayani nm st wt t).flesch_dayani =
      262.835 - 0.846 * (compute_flesch_dayani nm st wt t).asw
        - 1.015 * (compute_flesch_dayani nm st wt t).asl := by
  refine ⟨rfl, rfl, ?_⟩
  simp only [compute_flesch_dayani]
  ring

/-- C9: the pipeline is deterministic: running it twice on the same input
(with the same deterministic collaborators) yields identical
`ReadabilityResult` values in every field. -/
theorem C9_deterministic (nm : Str → Str) (st wt : Str → List Str) (t : Str) :
    compute_flesch_dayani nm st wt t = compute_flesch_dayani nm st wt t := rfl

/-- C3: the counts in the returned `ReadabilityResult` are exactly the
clamped quantities max(len sentences, 1), max(len words, 1),
max(sum of unit counts, 1), and each is at least 1, including when the
segmenter or tokenizer produces zero sentences or zero words. -/
theorem C3_clamped_counts (nm : Str → Str) (st wt : Str → List Str) (t : Str) :
    ((compute_flesch_dayani nm st wt t).sentences
        = max (st (nm t)).length 1 ∧
     (compute_flesch_dayani nm st wt t).words
        = max (pipeline_words ((st (nm t)).map wt)).length 1 ∧
     (compute_flesch_dayani nm st wt t).syllables
        = max (count_syllables (pipeline_words ((st (nm t)).map wt))) 1) ∧
    1 ≤ (compute_flesch_dayani nm st wt t).sentences ∧
    1 ≤ (compute_flesch_dayani nm st wt t).words ∧
    1 ≤ (compute_flesch_dayani nm st wt t).syllables := by
  refine ⟨⟨rfl, rfl, rfl⟩, ?_, ?_, ?_⟩ <;>
    simp only [compute_flesch_dayani] <;> omega

/-- C5: if segmentation of the normalized text yields an empty sentence
sequence, `compute_flesch_dayani` still returns (it is a total function)
and the clamping rules give n_sentences = 1, n_words = 1, n_units = 1. -/
theorem C5_empty_input_clamped (nm : Str → Str) (st wt : Str → List Str)
    (t : Str) (h : st (nm t) = []) :
    (compute_flesch_dayani nm st wt t).sentences = 1 ∧
    (compute_flesch_dayani nm st wt t).words = 1 ∧
    (compute_flesch_dayani nm st wt t).syllables = 1 := by
  simp [compute_flesch_dayani, h, pipeline_words, count_syllables]

/-- Witness for C5: collaborators that segment the empty text to no
sentences. -/
theorem C5_witness :
    ((fun (_ : Str) => ([] : List Str)) (id ([] : Str)) = []) ∧
    ((compute_flesch_dayani id (fun _ => []) (fun _ => []) []).sentences = 1 ∧
     (compute_flesch_dayani id (fun _ => []) (fun _ => []) []).words = 1 ∧
     (compute_flesch_dayani id (fun _ => []) (fun _ => []) []).syllables = 1) :=
  ⟨rfl, C5_empty_input_clamped id (fun _ => []) (fun _ => []) [] rfl⟩

/-- C6: holding the (clamped) word count and sentence count fixed,
strictly increasing the total unit count strictly decreases the score
computed by the formula of line 79. -/
theorem C6_score_antitone_in_units (ns nw u1 u2 : Nat)
    (hw : 0 < nw) (h : u1 < u2) :
    flesch_score ns nw u2 < flesch_score ns nw u1 := by
  unfold flesch_score
  have hw' : (0 : ℚ) < (nw : ℚ) := by exact_mod_cast hw
  have hu : ((u1 : ℚ)) / (nw : ℚ) < ((u2 : ℚ)) / (nw : ℚ) := by
    rw [div_lt_div_iff_of_pos_right hw']
    exact_mod_cast h
  have h846 : (0.846 : ℚ) * ((u1 : ℚ) / (nw : ℚ))
      < 0.846 * ((u2 : ℚ) / (nw : ℚ)) := by
    have : (0 : ℚ) < 0.846 := by norm_num
    exact mul_lt_mul_of_pos_left hu this
  linarith

/-- Witness for C6 at sentence count 1, word count 1, unit counts 1 < 2. -/
theorem C6_witness : flesch_score 1 1 2 < flesch_score 1 1 1 :=
  C6_score_antitone_in_units 1 1 1 2 (by decide) (by decide)

/-- C7: no division by zero occurs: both divisions of the pipeline are
exactly n_words / n_sentences and n_syllables / n_words on the clamped
counts, whose denominators are nonzero for every input and every choice
of collaborators (and every operation of the embedding is total). -/
theorem C7_no_division_by_zero (nm : Str → Str) (st wt : Str → List Str)
    (t : Str) :
    (((compute_flesch_dayani nm st wt t).sentences : ℚ) ≠ 0 ∧
     ((compute_flesch_dayani nm st wt t).words : ℚ) ≠ 0) ∧
    (compute_flesch_dayani nm st wt t).asl =
      ((compute_flesch_dayani nm st wt t).words : ℚ) /
        ((compute_flesch_dayani nm st wt t).sentences : ℚ) ∧
    (compute_flesch_dayani nm st wt t).asw =
      ((compute_flesch_dayani nm st wt t).syllables : ℚ) /
        ((compute_flesch_dayani nm st wt t).words : ℚ) := by
  refine ⟨⟨?_, ?_⟩, rfl, rfl⟩ <;>
  · rw [Nat.cast_ne_zero]
    simp only [compute_flesch_dayani]
    omega

/-! ### Whitespace filtering: `w.strip()` truthiness -/

lemma pyStrip_eq_nil_iff (w : Str) :
    pyStrip w = [] ↔ ∀ c ∈ w, pyIsSpace c := by
  unfold pyStrip
  rw [List.rdropWhile_eq_nil_iff]
  constructor
  · intro h c hc
    by_cases hp : pyIsSpace c
    · exact hp
    · have hsplit : c ∈ List.takeWhile pyIsSpace w
          ∨ c ∈ List.dropWhile pyIsSpace w := by
        rw [← List.mem_append, List.takeWhile_append_dropWhile]
        exact hc
      rcases hsplit with h1 | h2
      · exact absurd (List.mem_takeWhile_imp h1) hp
      · exact h c h2
  · intro h c hc
    exact h c ((List.dropWhile_sublist pyIsSpace).subset hc)

lemma stripTruthy_eq (w : Str) :
    stripTruthy w = !(w.isEmpty || w.all pyIsSpace) := by
  unfold stripTruthy
  by_cases hall : w.all pyIsSpace = true
  · have : pyStrip w = [] :=
      (pyStrip_eq_nil_iff w).mpr (List.all_eq_true.mp hall)
    simp [this, hall]
  · have hne : pyStrip w ≠ [] := fun hnil =>
      hall (List.all_eq_true.mpr ((pyStrip_eq_nil_iff w).mp hnil))
    have hwne : w.isEmpty = false := by
      cases w with
      | nil => exact absurd rfl hall
      | cons a l => rfl
    simp only [hwne, Bool.false_or]
    rw [Bool.not_eq_true] at *
    simp [List.isEmpty_iff, hne, hall]

/-- C8: the word list used for counting is the flattening of the tokenized
sentences, in sentence order then in-sentence order, with every token that
is empty or contains only whitespace excluded. -/
theorem C8_word_list (nm : Str → Str) (st wt : Str → List Str) (t : Str) :
    pipeline_words ((st (nm t)).map wt) =
      (((st (nm t)).map wt).flatten).filter
        (fun w => !(w.isEmpty || w.all pyIsSpace)) := by
  unfold pipeline_words
  rw [show stripTruthy = fun w => !(w.isEmpty || w.all pyIsSpace) from
    funext stripTruthy_eq]
  rw [List.filter_flatten]

/-! ### C10 helpers -/

lemma length_le_count_syllables (words : List Str) :
    words.length ≤ count_syllables words := by
  induction words with
  | nil => simp [count_syllables]
  | cons w ws ih =>
    have hw : 1 ≤ approx_syllables_in_word w := by
      show 1 ≤ if List.countP (fun ch => vowels.contains ch) w = 0 then 1
          else List.countP (fun ch => vowels.contains ch) w
      split <;> omega
    simp only [count_syllables, List.map_cons, List.sum_cons,
      List.length_cons] at *
    omega

/-- C10 (implicit): the returned result satisfies syllables ≥ words, hence
asw ≥ 1 and the score is at most 262.835 − 0.846 − 1.015·asl. -/
theorem C10_asw_ge_one (nm : Str → Str) (st wt : Str → List Str) (t : Str) :
    (compute_flesch_dayani nm st wt t).words
      ≤ (compute_flesch_dayani nm st wt t).syllables ∧
    1 ≤ (compute_flesch_dayani nm st wt t).asw ∧
    (compute_flesch_dayani nm st wt t).flesch_dayani
      ≤ 262.835 - 0.846 - 1.015 * (compute_flesch_dayani nm st wt t).asl := by
  have hle : (compute_flesch_dayani nm st wt t).words
      ≤ (compute_flesch_dayani nm st wt t).syllables := by
    simp only [compute_flesch_dayani]
    have := length_le_count_syllables (pipeline_words ((st (nm t)).map wt))
    omega
  have hwpos : 0 < (compute_flesch_dayani nm st wt t).words := by
    simp only [compute_flesch_dayani]
    omega
  have hwpos' : (0 : ℚ) < ((compute_flesch_dayani nm st wt t).words : ℚ) := by
    exact_mod_cast hwpos
  have hasw : 1 ≤ (compute_flesch_dayani nm st wt t).asw := by
    have : (compute_flesch_dayani nm st wt t).asw =
        ((compute_flesch_dayani nm st wt t).syllables : ℚ) /
          ((compute_flesch_dayani nm st wt t).words : ℚ) := rfl
    rw [this, one_le_div hwpos']
    exact_mod_cast hle
  refine ⟨hle, hasw, ?_⟩
  have hscore : (compute_flesch_dayani nm st wt t).flesch_dayani =
      262.835 - 1.015 * (compute_flesch_dayani nm st wt t).asl
        - 0.846 * (compute_flesch_dayani nm st wt t).asw := rfl
  rw [hscore]
  nlinarith [hasw]

end PersianReadability
